import Mathlib

/-!
Verification of the per-stream chat-completion processor of the AI gateway
external-processing filter, as implemented in
`internal/extproc/chatcompletion_processor.go`.

The embedding is shallow: the processor's mutable fields become an explicit
state record threaded through the event handlers; Go `uint32` arithmetic is
`Nat` with an explicit `% 2^32`; fallible calls return `Except`; the Go
`panic` in the dynamic-load-balancer lookup is a distinguished outcome of
`GoResult`.  External collaborators (router, translators, CEL evaluator,
gzip reader, dynamic load balancers) are function-valued parameters packaged
in `Env` and `ProcessorConfig`, so every theorem quantifies over all of
their behaviours.  Metric-sink calls are modelled as an emitted event list,
with Go `defer` semantics appended after the returned value is fixed.
-/

namespace AIGW

/-- The Go `map[string]string` header map: association list, reads of a
missing key yield the zero value `""` like a Go map read. -/
def HeaderMap := List (String × String)

/-- Go map read: value for the key, or the zero value `""`. -/
def hGet (m : HeaderMap) (k : String) : String :=
  match m.find? (fun p => p.1 == k) with
  | some p => p.2
  | none => ""

/-- Go map assignment: overwrites any previous binding of the key. -/
def hSet (m : HeaderMap) (k v : String) : HeaderMap :=
  (m.filter (fun p => p.1 != k)) ++ [(k, v)]

/-- `corev3.HeaderValueOption`: a header key together with its raw value. -/
structure HeaderValue where
  key : String
  rawValue : String
  deriving Repr, DecidableEq

/-- `extprocv3.HeaderMutation`: headers to set and to remove. -/
structure HeaderMutation where
  setHeaders : List HeaderValue
  removeHeaders : List String
  deriving Repr, DecidableEq

/-- `extprocv3.BodyMutation`: replacement body bytes. -/
def BodyMutation := String

/-- `structpb.Value`, restricted to the kinds the processor emits.  A
`uint32` cost is stored through `float64(cost)`, which is exact below
`2^32`, so the number is kept as the `Nat` it encodes. -/
inductive PBValue where
  | number (n : Nat)
  | struct (fields : List (String × PBValue))
  deriving Repr

/-- `structpb.Struct`: the field map, as an association list. -/
def StructPB := List (String × PBValue)

/-- The only body-processing-mode override the processor ever installs. -/
inductive ProcessingMode where
  | streamed
  deriving Repr, DecidableEq

/-- `extprocv3.ProcessingResponse`, restricted to the variants the
chat-completion processor produces, with the fields the claims inspect. -/
inductive ProcessingResponse where
  | requestHeadersResp
  | requestBodyResp (headerMutation : HeaderMutation) (bodyMutation : Option BodyMutation)
      (clearRouteCache : Bool)
  | responseHeadersResp (headerMutation : Option HeaderMutation)
      (modeOverride : Option ProcessingMode)
  | responseBodyResp (headerMutation : Option HeaderMutation)
      (bodyMutation : Option BodyMutation) (dynamicMetadata : Option StructPB)
  | immediateResp (status : Nat) (body : String)

/-- One call on the `x.ChatCompletionMetrics` sink, in emission order. -/
inductive MetricEvent where
  | startRequest
  | setModel (model : String)
  | setBackend (backend : String)
  | recordRequestCompletion (success : Bool)
  | recordTokenUsage (inputTokens outputTokens totalTokens : Nat)
  | recordTokenLatency (outputTokens : Nat)
  deriving Repr, DecidableEq

/-- Outcome of a Go function returning `(value, error)` that may also
`panic`: exactly one of the three happens. -/
inductive GoResult (α : Type) where
  | ok (val : α)
  | err (msg : String)
  | panicked (msg : String)

/-- `true` exactly when the call returned with a nil Go error. -/
def GoResult.isOkB : GoResult α → Bool
  | .ok _ => true
  | _ => false

/-- `true` exactly when the call panicked. -/
def GoResult.isPanicked : GoResult α → Bool
  | .panicked _ => true
  | _ => false

/-- `translator.LLMTokenUsage`: three Go `uint32` counters, kept as `Nat`
with wrap-around applied where the code adds them. -/
structure LLMTokenUsage where
  inputTokens : Nat
  outputTokens : Nat
  totalTokens : Nat
  deriving Repr, DecidableEq

/-- `2^32`, the modulus of Go `uint32` arithmetic. -/
def u32Mod : Nat := 4294967296

/-- Go `uint32` addition: wraps modulo `2^32`. -/
def addU32 (a b : Nat) : Nat := (a + b) % u32Mod

/-- The three `+=` statements accumulating token usage, componentwise. -/
def usageAddU32 (a b : LLMTokenUsage) : LLMTokenUsage :=
  ⟨addU32 a.inputTokens b.inputTokens,
   addU32 a.outputTokens b.outputTokens,
   addU32 a.totalTokens b.totalTokens⟩

/-- Exact (non-wrapping) componentwise sum, used to state overflow-free
accumulation. -/
def usageAdd (a b : LLMTokenUsage) : LLMTokenUsage :=
  ⟨a.inputTokens + b.inputTokens,
   a.outputTokens + b.outputTokens,
   a.totalTokens + b.totalTokens⟩

/-- Exact componentwise sum of a list of per-event deltas. -/
def usageSum (l : List LLMTokenUsage) : LLMTokenUsage :=
  ⟨(l.map LLMTokenUsage.inputTokens).sum,
   (l.map LLMTokenUsage.outputTokens).sum,
   (l.map LLMTokenUsage.totalTokens).sum⟩

/-- `filterapi.APISchemaName`: closed enum of backend schema names, plus the
catch-all for strings outside the enum. -/
inductive APISchemaName where
  | openAI
  | awsBedrock
  | azureOpenAI
  | other (s : String)
  deriving Repr, DecidableEq

/-- `filterapi.VersionedAPISchema`. -/
structure VersionedAPISchema where
  name : APISchemaName
  version : String
  deriving Repr, DecidableEq

/-- `filterapi.LLMRequestCostType`. -/
inductive LLMRequestCostType where
  | inputToken
  | outputToken
  | totalToken
  | cel
  | unknown (s : String)
  deriving Repr, DecidableEq

/-- One compiled request-cost rule (`processorConfig.requestCosts` entry);
the compiled CEL program is an opaque id resolved by the evaluator. -/
structure LLMRequestCost where
  metadataKey : String
  type : LLMRequestCostType
  celProg : Nat
  deriving Repr, DecidableEq

/-- The error returned by `router.Calculate`: its text, and whether
`errors.Is(err, x.ErrNoMatchingRule)` holds for it. -/
structure RouterError where
  isNoMatchingRule : Bool
  message : String
  deriving Repr, DecidableEq

/-- `filterapi.Backend` as the processor reads it: name, output schema and
the optional dynamic-load-balancing reference (pointer identity kept as an
opaque id used as the lookup key). -/
structure Backend where
  name : String
  schema : VersionedAPISchema
  dynamicLoadBalancing : Option Nat
  deriving Repr, DecidableEq

/-- `openai.ChatCompletionRequest`, restricted to the fields the processor
reads: the model name and the stream flag. -/
structure ChatCompletionRequest where
  model : String
  stream : Bool
  deriving Repr, DecidableEq

/-- A dynamic load balancer's `SelectChatCompletionsEndpoint(model, metrics)`:
yields a concrete backend plus extra routing headers, or fails. -/
def DynLB := String → Except String (Backend × List HeaderValue)

/-- Modelled from the spec: the backend-auth handler code is not part of the
embedded sources; per the spec, auth handlers are per-backend credential
injectors invoked synchronously to further mutate the outgoing
headers/body (e.g. sign the request).  Modelled as producing, from the
request-header snapshot, the credential headers to append to the header
mutation, or an error. -/
def AuthHandler := HeaderMap → Except String (List HeaderValue)

/-- An `OpenAIChatCompletionTranslator`: the three capabilities the
processor invokes, as pure functions quantified over in the theorems. -/
structure Translator where
  requestBody : ChatCompletionRequest →
    Except String (Option HeaderMutation × Option BodyMutation)
  responseHeaders : HeaderMap → Except String (Option HeaderMutation)
  responseBody : HeaderMap → String → Bool →
    Except String (Option HeaderMutation × Option BodyMutation × LLMTokenUsage)

/-- `processorConfig`: the immutable per-generation configuration snapshot
fields the chat-completion processor reads. -/
structure ProcessorConfig where
  schema : VersionedAPISchema
  modelNameHeaderKey : String
  selectedBackendHeaderKey : String
  metadataNamespace : String
  requestCosts : List LLMRequestCost
  router : HeaderMap → Except RouterError Backend
  dynamicLoadBalancers : List (Nat × DynLB)
  backendAuthHandlers : List (String × AuthHandler)

/-- External library functions the processor calls: the concrete translator
constructors, `llmcostcel.EvaluateProgram` (yielding a Go `uint64`), and
`gzip.NewReader` followed by a full read (header errors surface at
construction). -/
structure Env where
  openAITranslator : Translator
  awsBedrockTranslator : Translator
  azureTranslator : String → Translator
  evaluateProgram : Nat → String → String → Nat → Nat → Nat → Except String Nat
  gzipNewReader : String → Except String String

/-- `chatCompletionProcessor`: the per-stream mutable state. -/
structure ChatCompletionProcessor where
  config : ProcessorConfig
  requestHeaders : HeaderMap
  responseHeaders : HeaderMap
  responseEncoding : String
  translator : Option Translator
  costs : LLMTokenUsage
  stream : Bool
  dynamicLB : Option Nat

/-- One `extprocv3.HttpBody` response-body event: its bytes and the
end-of-stream flag. -/
structure RespBodyEvent where
  body : String
  endOfStream : Bool

/-- `parseOpenAIChatCompletionBody`: the `json.Unmarshal` outcome on the
event's bytes is the input; on success the model name is read from the
parsed request. -/
def parseOpenAIChatCompletionBody (body : Except String ChatCompletionRequest) :
    Except String (String × ChatCompletionRequest) :=
  match body with
  | .error e => .error ("failed to unmarshal body: " ++ e)
  | .ok req => .ok (req.model, req)

/-- `selectTranslator`: keeps an already-selected translator, otherwise
selects by output schema name; unknown schemas are an error.  Returns the
selected translator together with the updated state (the Go code stores it
in `c.translator` and calls through that field). -/
def selectTranslator (env : Env) (c : ChatCompletionProcessor)
    (out : VersionedAPISchema) : Except String (Translator × ChatCompletionProcessor) :=
  match c.translator with
  | some t => .ok (t, c)
  | none =>
    match out.name with
    | .openAI => .ok (env.openAITranslator, { c with translator := some env.openAITranslator })
    | .awsBedrock =>
        .ok (env.awsBedrockTranslator, { c with translator := some env.awsBedrockTranslator })
    | .azureOpenAI =>
        .ok (env.azureTranslator out.version,
             { c with translator := some (env.azureTranslator out.version) })
    | .other s => .error ("unsupported API schema: backend=" ++ s)

/-- `ProcessRequestHeaders`: records request start and replies with an empty
headers response. -/
def processRequestHeaders (c : ChatCompletionProcessor) :
    GoResult (ProcessingResponse × ChatCompletionProcessor) × List MetricEvent :=
  (.ok (.requestHeadersResp, c), [.startRequest])

/-- `ProcessRequestBody` without its deferred metric call (the body of the
Go function after the `defer` statement). -/
def processRequestBodyCore (env : Env) (c : ChatCompletionProcessor)
    (rawBody : Except String ChatCompletionRequest) :
    GoResult (ProcessingResponse × ChatCompletionProcessor) × List MetricEvent :=
  match parseOpenAIChatCompletionBody rawBody with
  | .error e => (.err ("failed to parse request body: " ++ e), [])
  | .ok (model, body) =>
    let c := { c with
      requestHeaders := hSet c.requestHeaders c.config.modelNameHeaderKey model }
    match c.config.router c.requestHeaders with
    | .error rerr =>
      if rerr.isNoMatchingRule then
        (.ok (.immediateResp 404 rerr.message, c),
         [.setModel model, .recordRequestCompletion false])
      else
        (.err ("failed to calculate route: " ++ rerr.message), [.setModel model])
    | .ok b0 =>
      let c := { c with dynamicLB := b0.dynamicLoadBalancing }
      let dynSel : GoResult (Backend × List HeaderValue × String) :=
        match b0.dynamicLoadBalancing with
        | none => .ok (b0, [], b0.name)
        | some ref =>
          match c.config.dynamicLoadBalancers.find? (fun p => p.1 == ref) with
          | none => .panicked "BUG: failed to find dynamic load balancer"
          | some (_, lb) =>
            match lb model with
            | .error e => .err ("failed to select endpoint: " ++ e)
            | .ok (b, headers) => .ok (b, headers, "original_destination_cluster")
      match dynSel with
      | .panicked m => (.panicked m, [.setModel model])
      | .err m => (.err m, [.setModel model])
      | .ok (b, lbHeaders, selectedBackendHeaderValue) =>
        match selectTranslator env c b.schema with
        | .error e =>
            (.err ("failed to select translator: " ++ e),
             [.setModel model, .setBackend b.name])
        | .ok (t, c) =>
          match t.requestBody body with
          | .error e =>
              (.err ("failed to transform request: " ++ e),
               [.setModel model, .setBackend b.name])
          | .ok (hm0, bodyMutation) =>
            let headerMutation := hm0.getD ⟨[], []⟩
            let headerMutation := { headerMutation with
              setHeaders := headerMutation.setHeaders ++
                ([⟨c.config.modelNameHeaderKey, model⟩,
                  ⟨c.config.selectedBackendHeaderKey, selectedBackendHeaderValue⟩] :
                 List HeaderValue) ++
                lbHeaders }
            match (match c.config.backendAuthHandlers.find? (fun p => p.1 == b.name) with
                   | none => Except.ok headerMutation
                   | some (_, ah) =>
                     match ah c.requestHeaders with
                     | .error e => .error e
                     | .ok extra =>
                         .ok { headerMutation with
                               setHeaders := headerMutation.setHeaders ++ extra }) with
            | .error e =>
                (.err ("failed to do auth request: " ++ e),
                 [.setModel model, .setBackend b.name])
            | .ok headerMutation =>
              (.ok (.requestBodyResp headerMutation bodyMutation true,
                    { c with stream := body.stream }),
               [.setModel model, .setBackend b.name])

/-- `ProcessRequestBody`: the core plus its `defer`, which records a failed
request completion exactly when the named error return is non-nil. -/
def processRequestBody (env : Env) (c : ChatCompletionProcessor)
    (rawBody : Except String ChatCompletionRequest) :
    GoResult (ProcessingResponse × ChatCompletionProcessor) × List MetricEvent :=
  let r := processRequestBodyCore env c rawBody
  match r.1 with
  | .err _ => (r.1, r.2 ++ [.recordRequestCompletion false])
  | _ => r

/-- `ProcessResponseHeaders` without its deferred metric call. -/
def processResponseHeadersCore (c : ChatCompletionProcessor) (headers : HeaderMap) :
    GoResult (ProcessingResponse × ChatCompletionProcessor) × List MetricEvent :=
  let c := { c with responseHeaders := headers }
  let c := if hGet c.responseHeaders "content-encoding" != "" then
             { c with responseEncoding := hGet c.responseHeaders "content-encoding" }
           else c
  match c.translator with
  | none => (.ok (.responseHeadersResp none none, c), [])
  | some t =>
    match t.responseHeaders c.responseHeaders with
    | .error e => (.err ("failed to transform response headers: " ++ e), [])
    | .ok headerMutation =>
      let mode : Option ProcessingMode :=
        if c.stream && (hGet c.responseHeaders ":status" == "200") then
          some .streamed
        else none
      (.ok (.responseHeadersResp headerMutation mode, c), [])

/-- `ProcessResponseHeaders`: the core plus its `defer`, which records a
failed request completion exactly when the named error return is non-nil. -/
def processResponseHeaders (c : ChatCompletionProcessor) (headers : HeaderMap) :
    GoResult (ProcessingResponse × ChatCompletionProcessor) × List MetricEvent :=
  let r := processResponseHeadersCore c headers
  match r.1 with
  | .err _ => (r.1, r.2 ++ [.recordRequestCompletion false])
  | _ => r

/-- The per-rule cost value of `maybeBuildDynamicMetadata`'s switch: the
accumulated `uint32` counters for the token kinds, and for CEL rules the
evaluator applied to the header-resolved model and backend and the
accumulated counts, with the Go `uint32(costU64)` conversion written as
`% 2^32`. -/
def costValue (env : Env) (c : ChatCompletionProcessor) (rc : LLMRequestCost) :
    Except String Nat :=
  match rc.type with
  | .inputToken => .ok c.costs.inputTokens
  | .outputToken => .ok c.costs.outputTokens
  | .totalToken => .ok c.costs.totalTokens
  | .cel =>
    match env.evaluateProgram rc.celProg
        (hGet c.requestHeaders c.config.modelNameHeaderKey)
        (hGet c.requestHeaders c.config.selectedBackendHeaderKey)
        c.costs.inputTokens c.costs.outputTokens c.costs.totalTokens with
    | .error e => .error ("failed to evaluate CEL expression: " ++ e)
    | .ok costU64 => .ok (costU64 % u32Mod)
  | .unknown s => .error ("unknown request cost kind: " ++ s)

/-- Go map assignment `metadata[key] = value`: overwrites any previous
binding of the key. -/
def mapInsert (m : List (String × PBValue)) (k : String) (v : PBValue) :
    List (String × PBValue) :=
  (m.filter (fun p => p.1 != k)) ++ [(k, v)]

/-- The loop of `maybeBuildDynamicMetadata` over the configured cost rules:
any rule error aborts the whole build. -/
def buildCostMetadata (env : Env) (c : ChatCompletionProcessor) :
    List LLMRequestCost → List (String × PBValue) →
    Except String (List (String × PBValue))
  | [], acc => .ok acc
  | rc :: rest, acc =>
    match costValue env c rc with
    | .error e => .error e
    | .ok cost => buildCostMetadata env c rest (mapInsert acc rc.metadataKey (.number cost))

/-- `maybeBuildDynamicMetadata`: builds the cost map, returns nothing when
it is empty, otherwise the single nested struct keyed by the configured
metadata namespace. -/
def maybeBuildDynamicMetadata (env : Env) (c : ChatCompletionProcessor) :
    Except String (Option StructPB) :=
  match buildCostMetadata env c c.config.requestCosts [] with
  | .error e => .error e
  | .ok metadata =>
    if metadata.isEmpty then .ok none
    else .ok (some [(c.config.metadataNamespace, .struct metadata)])

/-- The `content-encoding` switch of `ProcessResponseBody`: `gzip` bodies go
through `gzip.NewReader` (whose header check may fail), anything else is
passed through raw. -/
def decodeRespBody (env : Env) (enc : String) (body : String) : Except String String :=
  if enc == "gzip" then
    match env.gzipNewReader body with
    | .error e => .error ("failed to decode gzip: " ++ e)
    | .ok s => .ok s
  else .ok body

/-- `ProcessResponseBody` without its deferred metric call. -/
def processResponseBodyCore (env : Env) (c : ChatCompletionProcessor)
    (body : RespBodyEvent) :
    GoResult (ProcessingResponse × ChatCompletionProcessor) × List MetricEvent :=
  match decodeRespBody env c.responseEncoding body.body with
  | .error e => (.err e, [])
  | .ok br =>
    match c.translator with
    | none => (.ok (.responseBodyResp none none none, c), [])
    | some t =>
      match t.responseBody c.responseHeaders br body.endOfStream with
      | .error e => (.err ("failed to transform response: " ++ e), [])
      | .ok (headerMutation, bodyMutation, tokenUsage) =>
        let c := { c with costs := usageAddU32 c.costs tokenUsage }
        let evts := [MetricEvent.recordTokenUsage tokenUsage.inputTokens
                       tokenUsage.outputTokens tokenUsage.totalTokens] ++
          (if c.stream then [MetricEvent.recordTokenLatency tokenUsage.outputTokens] else [])
        if body.endOfStream && !c.config.requestCosts.isEmpty then
          match maybeBuildDynamicMetadata env c with
          | .error e => (.err ("failed to build dynamic metadata: " ++ e), evts)
          | .ok dm => (.ok (.responseBodyResp headerMutation bodyMutation dm, c), evts)
        else
          (.ok (.responseBodyResp headerMutation bodyMutation none, c), evts)

/-- `ProcessResponseBody`: the core plus its `defer`, which always records a
request completion whose success flag is `err == nil`. -/
def processResponseBody (env : Env) (c : ChatCompletionProcessor)
    (body : RespBodyEvent) :
    GoResult (ProcessingResponse × ChatCompletionProcessor) × List MetricEvent :=
  let r := processResponseBodyCore env c body
  (r.1, r.2 ++ [.recordRequestCompletion (match r.1 with | .err _ => false | _ => true)])

/-- Sequential processing of a list of response-body events of one stream,
threading the processor state and concatenating the emitted metric events;
stops at the first failing call. -/
def runResponseBodies (env : Env) :
    ChatCompletionProcessor → List RespBodyEvent →
    GoResult ChatCompletionProcessor × List MetricEvent
  | c, [] => (.ok c, [])
  | c, ev :: rest =>
    match processResponseBody env c ev with
    | (.ok (_, c'), evts) =>
      let r := runResponseBodies env c' rest
      (r.1, evts ++ r.2)
    | (.err m, evts) => (.err m, evts)
    | (.panicked m, evts) => (.panicked m, evts)

/-- The token-usage delta a response-body event contributes: the usage the
translator returns for it (`none` when the event's processing fails, zero
when no translator is bound).  Depends only on the state components that
response-body processing never changes. -/
def responseDelta (env : Env) (enc : String) (rh : HeaderMap)
    (tOpt : Option Translator) (ev : RespBodyEvent) : Option LLMTokenUsage :=
  match decodeRespBody env enc ev.body with
  | .error _ => none
  | .ok br =>
    match tOpt with
    | none => some ⟨0, 0, 0⟩
    | some t =>
      match t.responseBody rh br ev.endOfStream with
      | .error _ => none
      | .ok (_, _, u) => some u

/-- The per-event deltas of a whole event list, defined when every event's
translation succeeds. -/
def deltasList (env : Env) (enc : String) (rh : HeaderMap)
    (tOpt : Option Translator) : List RespBodyEvent → Option (List LLMTokenUsage)
  | [] => some []
  | ev :: rest =>
    match responseDelta env enc rh tOpt ev with
    | none => none
    | some d =>
      match deltasList env enc rh tOpt rest with
      | none => none
      | some ds => some (d :: ds)

/-- `true` exactly for a request-completion metric event. -/
def isRequestCompletionEvent : MetricEvent → Bool
  | .recordRequestCompletion _ => true
  | _ => false

/-! Concrete fixtures used to evaluate the theorems on explicit inputs. -/

/-- A pass-through translator reporting a fixed small usage delta. -/
def idTranslator : Translator where
  requestBody := fun _ => .ok (none, none)
  responseHeaders := fun _ => .ok none
  responseBody := fun _ _ _ => .ok (none, none, ⟨1, 2, 3⟩)

/-- A concrete environment: pass-through translators, a CEL evaluator
computing `input_tokens * 2 + output_tokens`, and an identity gzip reader. -/
def env0 : Env where
  openAITranslator := idTranslator
  awsBedrockTranslator := idTranslator
  azureTranslator := fun _ => idTranslator
  evaluateProgram := fun _ _ _ i o _ => .ok (i * 2 + o)
  gzipNewReader := fun s => .ok s

/-- A concrete non-dynamic OpenAI backend. -/
def backend0 : Backend := ⟨"openai", ⟨.openAI, ""⟩, none⟩

/-- A concrete configuration whose router always picks `backend0`. -/
def config0 : ProcessorConfig where
  schema := ⟨.openAI, ""⟩
  modelNameHeaderKey := "x-ai-eg-model"
  selectedBackendHeaderKey := "x-ai-eg-selected-backend"
  metadataNamespace := "ai_gateway_llm_ns"
  requestCosts := []
  router := fun _ => .ok backend0
  dynamicLoadBalancers := []
  backendAuthHandlers := []

/-- A freshly constructed processor over `config0`. -/
def proc0 : ChatCompletionProcessor where
  config := config0
  requestHeaders := [(":path", "/v1/chat/completions")]
  responseHeaders := []
  responseEncoding := ""
  translator := none
  costs := ⟨0, 0, 0⟩
  stream := false
  dynamicLB := none

/-- A processor whose router reports that no rule matched. -/
def procNoMatch : ChatCompletionProcessor := { proc0 with
  config := { config0 with
    router := fun _ => .error ⟨true, "no matching rule found"⟩ } }

/-- C1: for every request-body event whose router invocation returns the
no-matching-rule error, `ProcessRequestBody` returns with a nil Go error an
immediate response with HTTP status 404 whose body is the router error's
explanation text, and records request-completion as failure in the metric
sink. -/
theorem requestBody_noMatch_immediate404 (env : Env) (c : ChatCompletionProcessor)
    (req : ChatCompletionRequest) (rerr : RouterError)
    (hroute : c.config.router
      (hSet c.requestHeaders c.config.modelNameHeaderKey req.model) = .error rerr)
    (hnm : rerr.isNoMatchingRule = true) :
    processRequestBody env c (.ok req) =
      (.ok (.immediateResp 404 rerr.message,
        { c with requestHeaders := hSet c.requestHeaders c.config.modelNameHeaderKey req.model }),
       [.setModel req.model, .recordRequestCompletion false]) := by
  simp [processRequestBody, processRequestBodyCore, parseOpenAIChatCompletionBody,
    hroute, hnm]

/-- Evaluation of the C1 theorem on a concrete no-match request. -/
theorem requestBody_noMatch_immediate404_witness :
    processRequestBody env0 procNoMatch (.ok ⟨"gpt-4o-mini", false⟩) =
      (.ok (.immediateResp 404 "no matching rule found",
        { procNoMatch with requestHeaders := hSet procNoMatch.requestHeaders "x-ai-eg-model" "gpt-4o-mini" }),
       [.setModel "gpt-4o-mini", .recordRequestCompletion false]) :=
  requestBody_noMatch_immediate404 env0 procNoMatch ⟨"gpt-4o-mini", false⟩
    ⟨true, "no matching rule found"⟩ rfl rfl

/-- C7: for every response-headers event handled with a bound translator, a
successful reply carries the `STREAMED` body-mode override exactly when the
original request asked for streaming and the response status is 200, and
carries no override otherwise. -/
theorem responseHeaders_mode_override (c : ChatCompletionProcessor) (hdrs : HeaderMap)
    (t : Translator) (resp : ProcessingResponse) (c' : ChatCompletionProcessor)
    (evts : List MetricEvent) (ht : c.translator = some t)
    (h : processResponseHeaders c hdrs = (.ok (resp, c'), evts)) :
    ∃ hm mo, resp = .responseHeadersResp hm mo ∧
      (mo = some .streamed ↔ (c.stream = true ∧ hGet hdrs ":status" = "200")) ∧
      (¬(c.stream = true ∧ hGet hdrs ":status" = "200") → mo = none) := by
  simp only [processResponseHeaders, processResponseHeadersCore] at h
  rcases Bool.eq_false_or_eq_true (hGet hdrs "content-encoding" != "") with henc | henc <;>
    rcases htr : t.responseHeaders hdrs with e | hm <;>
    simp [henc, ht, htr] at h <;>
    obtain ⟨⟨hresp, -⟩, -⟩ := h <;>
    refine ⟨_, _, hresp.symm, ?_, ?_⟩ <;>
    split <;>
    simp_all

/-- A processor with a bound translator that requested a streaming response. -/
def procStream : ChatCompletionProcessor :=
  { proc0 with translator := some idTranslator, stream := true }

/-- Evaluation of the C7 theorem on a concrete streaming 200 response. -/
theorem responseHeaders_mode_override_witness :
    ∃ hm mo, ProcessingResponse.responseHeadersResp none (some ProcessingMode.streamed) =
        ProcessingResponse.responseHeadersResp hm mo ∧
      (mo = some ProcessingMode.streamed ↔
        (procStream.stream = true ∧ hGet [(":status", "200")] ":status" = "200")) ∧
      (¬(procStream.stream = true ∧ hGet [(":status", "200")] ":status" = "200") → mo = none) :=
  responseHeaders_mode_override procStream [(":status", "200")] idTranslator
    (ProcessingResponse.responseHeadersResp none (some ProcessingMode.streamed))
    { procStream with responseHeaders := [(":status", "200")] } [] rfl rfl

/-- `ProcessResponseBody` (before its deferred call) never panics and emits
no request-completion event of its own. -/
theorem processResponseBodyCore_shape (env : Env) (c : ChatCompletionProcessor)
    (ev : RespBodyEvent) :
    (processResponseBodyCore env c ev).1.isPanicked = false ∧
    ((processResponseBodyCore env c ev).2.filter isRequestCompletionEvent) = [] := by
  unfold processResponseBodyCore
  rcases hdec : decodeRespBody env c.responseEncoding ev.body with e | br <;>
    simp only [hdec]
  · simp [GoResult.isPanicked]
  rcases ht : c.translator with _ | t <;> simp only [ht]
  · simp [GoResult.isPanicked]
  rcases htr : t.responseBody c.responseHeaders br ev.endOfStream with e | ⟨hm, bm, u⟩ <;>
    simp only [htr]
  · simp [GoResult.isPanicked]
  split
  · rcases hmb : maybeBuildDynamicMetadata env
        { c with translator := some t, costs := usageAddU32 c.costs u } with
      e | dm <;> simp only [hmb]
    · refine ⟨rfl, ?_⟩
      split <;> simp [isRequestCompletionEvent]
    · refine ⟨rfl, ?_⟩
      split <;> simp [isRequestCompletionEvent]
  · refine ⟨rfl, ?_⟩
    split <;> simp [isRequestCompletionEvent]

/-- Each `ProcessResponseBody` call emits exactly one request-completion
event, last, with the success flag of its own outcome. -/
theorem processResponseBody_completion_singleton (env : Env)
    (c : ChatCompletionProcessor) (ev : RespBodyEvent) :
    ((processResponseBody env c ev).2.filter isRequestCompletionEvent) =
      [MetricEvent.recordRequestCompletion (processResponseBody env c ev).1.isOkB] := by
  obtain ⟨hp, hf⟩ := processResponseBodyCore_shape env c ev
  simp only [processResponseBody]
  cases hr : (processResponseBodyCore env c ev).1 <;>
    simp_all [GoResult.isOkB, GoResult.isPanicked, isRequestCompletionEvent,
      List.filter_append]

/-- A run of n successful response-body events emits n request-completion
events in total. -/
theorem runResponseBodies_completion_count (env : Env) :
    ∀ (evs : List RespBodyEvent) (c : ChatCompletionProcessor)
      (c' : GoResult ChatCompletionProcessor) (evts : List MetricEvent),
      runResponseBodies env c evs = (c', evts) → c'.isOkB = true →
      (evts.filter isRequestCompletionEvent).length = evs.length := by
  intro evs
  induction evs with
  | nil =>
    intro c c' evts h _
    injection h with h1 h2
    subst h2
    simp
  | cons ev rest ih =>
    intro c c' evts h hok
    simp only [runResponseBodies] at h
    split at h
    case h_1 a c₂ evts₁ heq =>
      injection h with h1 h2
      subst h1
      subst h2
      have hone : (evts₁.filter isRequestCompletionEvent).length = 1 := by
        have hs := processResponseBody_completion_singleton env c ev
        rw [heq] at hs
        simp [hs]
      have hcount := ih c₂ (runResponseBodies env c₂ rest).1
        (runResponseBodies env c₂ rest).2 rfl hok
      simp [List.filter_append, List.length_append, hone, hcount]
      omega
    case h_2 m evts₁ heq =>
      injection h with h1 h2
      rw [← h1] at hok
      simp [GoResult.isOkB] at hok
    case h_3 m evts₁ heq =>
      injection h with h1 h2
      rw [← h1] at hok
      simp [GoResult.isOkB] at hok

/-- C10: every `ProcessResponseBody` call — also for non-final streaming
chunks — records exactly one request-completion event, with success flag
true exactly when the call returns no error; a run of n successful body
events therefore records n completions, not one. -/
theorem responseBody_completion_per_event (env : Env) (c : ChatCompletionProcessor) :
    (∀ ev, ((processResponseBody env c ev).2.filter isRequestCompletionEvent) =
      [MetricEvent.recordRequestCompletion (processResponseBody env c ev).1.isOkB]) ∧
    (∀ evs c' evts, runResponseBodies env c evs = (c', evts) → c'.isOkB = true →
      (evts.filter isRequestCompletionEvent).length = evs.length) :=
  ⟨fun ev => processResponseBody_completion_singleton env c ev,
   fun evs c' evts h hok => runResponseBodies_completion_count env evs c c' evts h hok⟩

/-- Evaluation of the C10 theorem on a concrete one-chunk stream. -/
theorem responseBody_completion_per_event_witness :
    ((processResponseBody env0 procStream ⟨"", false⟩).2.filter isRequestCompletionEvent) =
      [MetricEvent.recordRequestCompletion
        (processResponseBody env0 procStream ⟨"", false⟩).1.isOkB] ∧
    (([MetricEvent.recordTokenUsage 1 2 3, MetricEvent.recordTokenLatency 2,
       MetricEvent.recordRequestCompletion true].filter isRequestCompletionEvent).length = 1) :=
  ⟨(responseBody_completion_per_event env0 procStream).1 ⟨"", false⟩,
   (responseBody_completion_per_event env0 procStream).2 [⟨"", false⟩]
     (GoResult.ok { procStream with costs := ⟨1, 2, 3⟩ })
     [MetricEvent.recordTokenUsage 1 2 3, MetricEvent.recordTokenLatency 2,
      MetricEvent.recordRequestCompletion true] rfl rfl⟩

/-- A Go map insertion never yields an empty map. -/
theorem mapInsert_ne_nil (m : List (String × PBValue)) (k : String) (v : PBValue) :
    mapInsert m k v ≠ [] := by
  simp [mapInsert]

/-- The cost-metadata loop starting from a non-empty map yields a non-empty
map. -/
theorem buildCostMetadata_ne_nil (env : Env) (c : ChatCompletionProcessor) :
    ∀ (rcs : List LLMRequestCost) (acc m : List (String × PBValue)),
      acc ≠ [] → buildCostMetadata env c rcs acc = .ok m → m ≠ [] := by
  intro rcs
  induction rcs with
  | nil =>
    intro acc m hacc h
    simp only [buildCostMetadata, Except.ok.injEq] at h
    rwa [← h]
  | cons rc rest ih =>
    intro acc m hacc h
    simp only [buildCostMetadata] at h
    split at h
    · exact absurd h (by simp)
    · exact ih _ m (mapInsert_ne_nil _ _ _) h

/-- With at least one cost rule, a successful `maybeBuildDynamicMetadata`
yields exactly the single nested struct under the metadata namespace, with a
non-empty inner map. -/
theorem maybeBuildDynamicMetadata_shape (env : Env) (c : ChatCompletionProcessor)
    (dm : Option StructPB) (hne : c.config.requestCosts ≠ [])
    (h : maybeBuildDynamicMetadata env c = .ok dm) :
    ∃ inner, inner ≠ [] ∧
      dm = some [(c.config.metadataNamespace, PBValue.struct inner)] ∧
      buildCostMetadata env c c.config.requestCosts [] = .ok inner := by
  unfold maybeBuildDynamicMetadata at h
  split at h
  · simp at h
  next metadata hbc =>
    have hm : metadata ≠ [] := by
      rcases hcs : c.config.requestCosts with _ | ⟨rc, rest⟩
      · exact absurd hcs hne
      · rw [hcs] at hbc
        simp only [buildCostMetadata] at hbc
        split at hbc
        · simp at hbc
        · exact buildCostMetadata_ne_nil env c rest _ metadata (mapInsert_ne_nil _ _ _) hbc
    rw [if_neg (by simpa [List.isEmpty_iff] using hm)] at h
    exact ⟨metadata, hm, (Except.ok.inj h).symm, hbc⟩

/-- With no cost rules configured the metadata build yields nothing. -/
theorem maybeBuildDynamicMetadata_empty (env : Env) (c : ChatCompletionProcessor)
    (h : c.config.requestCosts = []) : maybeBuildDynamicMetadata env c = .ok none := by
  simp [maybeBuildDynamicMetadata, h, buildCostMetadata]

/-- C2: on a successful response-body reply, dynamic metadata is attached
exactly when the event is final and cost rules are configured (and the cost
computation succeeded, which a successful reply implies); when attached it
is the single nested struct mapping the namespace to the non-empty cost
map, and an empty cost map (no rules) yields no metadata. -/
theorem responseBody_dynamicMetadata_iff (env : Env) (c : ChatCompletionProcessor)
    (t : Translator) (ev : RespBodyEvent) (resp : ProcessingResponse)
    (c' : ChatCompletionProcessor) (evts : List MetricEvent)
    (ht : c.translator = some t)
    (h : processResponseBody env c ev = (.ok (resp, c'), evts)) :
    (∃ hm bm dm, resp = .responseBodyResp hm bm dm ∧
      ((ev.endOfStream = true ∧ c.config.requestCosts ≠ []) →
        ∃ inner, inner ≠ [] ∧
          dm = some [(c.config.metadataNamespace, PBValue.struct inner)] ∧
          maybeBuildDynamicMetadata env c' = .ok dm) ∧
      (¬(ev.endOfStream = true ∧ c.config.requestCosts ≠ []) → dm = none)) ∧
    (c.config.requestCosts = [] → maybeBuildDynamicMetadata env c = .ok none) := by
  refine ⟨?_, maybeBuildDynamicMetadata_empty env c⟩
  simp only [processResponseBody, processResponseBodyCore] at h
  rcases hdec : decodeRespBody env c.responseEncoding ev.body with e | br <;>
    simp only [hdec, ht] at h
  · simp at h
  rcases htr : t.responseBody c.responseHeaders br ev.endOfStream with e | ⟨hm, bm, u⟩ <;>
    simp only [htr] at h
  · simp at h
  by_cases hg : (ev.endOfStream && !c.config.requestCosts.isEmpty) = true
  · have hg2 : ev.endOfStream = true ∧ c.config.requestCosts ≠ [] := by
      simpa [List.isEmpty_iff] using hg
    rw [if_pos hg] at h
    rcases hmb : maybeBuildDynamicMetadata env
        { c with translator := some t, costs := usageAddU32 c.costs u } with e | dm <;>
      simp only [hmb] at h
    · simp at h
    simp only [Prod.mk.injEq, GoResult.ok.injEq] at h
    obtain ⟨⟨hresp, hc'⟩, -⟩ := h
    subst hresp
    subst hc'
    refine ⟨hm, bm, dm, rfl, fun _ => ?_, fun hng => absurd hg2 hng⟩
    obtain ⟨inner, h1, h2, -⟩ :=
      maybeBuildDynamicMetadata_shape env
        { c with translator := some t, costs := usageAddU32 c.costs u } dm hg2.2 hmb
    exact ⟨inner, h1, h2, hmb⟩
  · rw [if_neg hg] at h
    simp only [Prod.mk.injEq, GoResult.ok.injEq] at h
    obtain ⟨⟨hresp, hc'⟩, -⟩ := h
    subst hresp
    subst hc'
    refine ⟨hm, bm, none, rfl, fun hgg => ?_, fun _ => rfl⟩
    exact absurd (by simpa [List.isEmpty_iff] using hgg : (ev.endOfStream && !c.config.requestCosts.isEmpty) = true) hg

/-- A processor with a bound translator and one total-token cost rule. -/
def procCost : ChatCompletionProcessor := { proc0 with
  translator := some idTranslator,
  config := { config0 with requestCosts := [⟨"total", .totalToken, 0⟩] } }

/-- Evaluation of the C2 theorem on a concrete final event with one cost
rule configured. -/
theorem responseBody_dynamicMetadata_iff_witness :
    (∃ hm bm dm,
      ProcessingResponse.responseBodyResp none none
          (some [("ai_gateway_llm_ns", PBValue.struct [("total", PBValue.number 3)])]) =
        ProcessingResponse.responseBodyResp hm bm dm ∧
      (((⟨"", true⟩ : RespBodyEvent).endOfStream = true ∧
          procCost.config.requestCosts ≠ []) →
        ∃ inner, inner ≠ [] ∧
          dm = some [(procCost.config.metadataNamespace, PBValue.struct inner)] ∧
          maybeBuildDynamicMetadata env0 { procCost with costs := ⟨1, 2, 3⟩ } = .ok dm) ∧
      (¬((⟨"", true⟩ : RespBodyEvent).endOfStream = true ∧
          procCost.config.requestCosts ≠ []) → dm = none)) ∧
    (procCost.config.requestCosts = [] →
      maybeBuildDynamicMetadata env0 procCost = .ok none) :=
  responseBody_dynamicMetadata_iff env0 procCost idTranslator ⟨"", true⟩
    (.responseBodyResp none none
      (some [("ai_gateway_llm_ns", PBValue.struct [("total", PBValue.number 3)])]))
    { procCost with costs := ⟨1, 2, 3⟩ }
    [MetricEvent.recordTokenUsage 1 2 3, MetricEvent.recordRequestCompletion true]
    rfl rfl

/-- C8: an expression (CEL) cost rule is evaluated with the model and the
backend resolved from the processor's request-header map under the
configured model-name and selected-backend header keys, together with the
accumulated token counts; with one CEL rule the emitted metadata carries
exactly that evaluation's (uint32-converted) value. -/
theorem celRule_evaluator_arguments (env : Env) (c : ChatCompletionProcessor)
    (rc : LLMRequestCost) (v : Nat) (hty : rc.type = .cel)
    (hev : env.evaluateProgram rc.celProg
        (hGet c.requestHeaders c.config.modelNameHeaderKey)
        (hGet c.requestHeaders c.config.selectedBackendHeaderKey)
        c.costs.inputTokens c.costs.outputTokens c.costs.totalTokens = .ok v) :
    costValue env c rc = .ok (v % u32Mod) ∧
    (c.config.requestCosts = [rc] →
      maybeBuildDynamicMetadata env c =
        .ok (some [(c.config.metadataNamespace,
          PBValue.struct [(rc.metadataKey, PBValue.number (v % u32Mod))])])) := by
  have hcv : costValue env c rc = .ok (v % u32Mod) := by
    simp [costValue, hty, hev]
  refine ⟨hcv, fun hcs => ?_⟩
  simp [maybeBuildDynamicMetadata, hcs, buildCostMetadata, hcv, mapInsert]

/-- A processor with accumulated usage (10, 3, 13) and one CEL cost rule. -/
def procCel : ChatCompletionProcessor := { proc0 with
  costs := ⟨10, 3, 13⟩,
  config := { config0 with requestCosts := [⟨"c", .cel, 0⟩] } }

/-- Evaluation of the C8 theorem on a concrete CEL rule, with `env0`'s
evaluator computing `input_tokens * 2 + output_tokens`. -/
theorem celRule_evaluator_arguments_witness :
    costValue env0 procCel ⟨"c", .cel, 0⟩ = .ok (23 % u32Mod) ∧
    (procCel.config.requestCosts = [⟨"c", .cel, 0⟩] →
      maybeBuildDynamicMetadata env0 procCel =
        .ok (some [(procCel.config.metadataNamespace,
          PBValue.struct [("c", PBValue.number (23 % u32Mod))])])) :=
  celRule_evaluator_arguments env0 procCel ⟨"c", .cel, 0⟩ 23 rfl rfl

/-- An environment whose CEL evaluator yields `2^32`, one past the 32-bit
unsigned maximum. -/
def envOverflow : Env :=
  { env0 with evaluateProgram := fun _ _ _ _ _ _ => .ok 4294967296 }

/-- A processor with one CEL cost rule and no accumulated usage. -/
def procCelOverflow : ChatCompletionProcessor :=
  { proc0 with config := { config0 with requestCosts := [⟨"k", .cel, 0⟩] } }

/-- C5 counterexample: a cost value of `2^32` is written to dynamic
metadata as `0` — truncated modulo `2^32` — and not as the 32-bit unsigned
maximum `4294967295` the clamping claim requires. -/
theorem celOverflow_truncates_counterexample :
    maybeBuildDynamicMetadata envOverflow procCelOverflow =
      .ok (some [("ai_gateway_llm_ns", PBValue.struct [("k", PBValue.number 0)])]) ∧
    (0 : Nat) ≠ 4294967295 :=
  ⟨rfl, by decide⟩

/-- C5 amended: a cost value exceeding the 32-bit unsigned range is written
into dynamic metadata truncated modulo `2^32` (the Go `uint32` conversion),
not clamped to the maximum. -/
theorem celOverflow_truncated (env : Env) (c : ChatCompletionProcessor)
    (rc : LLMRequestCost) (v : Nat) (hty : rc.type = .cel) (hbig : u32Mod ≤ v)
    (hev : env.evaluateProgram rc.celProg
        (hGet c.requestHeaders c.config.modelNameHeaderKey)
        (hGet c.requestHeaders c.config.selectedBackendHeaderKey)
        c.costs.inputTokens c.costs.outputTokens c.costs.totalTokens = .ok v)
    (hcs : c.config.requestCosts = [rc]) :
    maybeBuildDynamicMetadata env c =
      .ok (some [(c.config.metadataNamespace,
        PBValue.struct [(rc.metadataKey, PBValue.number (v % u32Mod))])]) := by
  have hcv : costValue env c rc = .ok (v % u32Mod) := by
    simp [costValue, hty, hev]
  simp [maybeBuildDynamicMetadata, hcs, buildCostMetadata, hcv, mapInsert]

/-- Evaluation of the C5 amended theorem at the overflowing value `2^32`. -/
theorem celOverflow_truncated_witness :
    maybeBuildDynamicMetadata envOverflow procCelOverflow =
      .ok (some [(procCelOverflow.config.metadataNamespace,
        PBValue.struct [("k", PBValue.number (4294967296 % u32Mod))])]) :=
  celOverflow_truncated envOverflow procCelOverflow ⟨"k", .cel, 0⟩ 4294967296
    rfl (by decide) rfl rfl

/-- An environment whose CEL evaluator fails at runtime. -/
def envEvalFail : Env :=
  { env0 with evaluateProgram := fun _ _ _ _ _ _ => .error "no such attribute" }

/-- A processor with a bound translator and one CEL cost rule. -/
def procCelFail : ChatCompletionProcessor := { proc0 with
  translator := some idTranslator,
  config := { config0 with requestCosts := [⟨"c", .cel, 0⟩] } }

/-- C4 counterexample: on a final response-body event whose CEL cost rule
fails to evaluate, `ProcessResponseBody` returns a non-nil error — the
stream event fails and no normal reply is produced, contradicting the
logged-and-continue claim. -/
theorem celEvalFailure_fatal_counterexample :
    processResponseBody envEvalFail procCelFail ⟨"", true⟩ =
      (.err "failed to build dynamic metadata: failed to evaluate CEL expression: no such attribute",
       [MetricEvent.recordTokenUsage 1 2 3, MetricEvent.recordRequestCompletion false]) := rfl

/-- C4 amended: when evaluation of a CEL cost rule fails on the final
response-body event, the build error is returned as the call's error — no
reply and no metadata are emitted — and request completion is recorded as
failure. -/
theorem celEvalFailure_fatal (env : Env) (c : ChatCompletionProcessor)
    (t : Translator) (ev : RespBodyEvent) (br : String)
    (hm : Option HeaderMutation) (bm : Option BodyMutation) (u : LLMTokenUsage)
    (e : String) (ht : c.translator = some t)
    (hdec : decodeRespBody env c.responseEncoding ev.body = .ok br)
    (htr : t.responseBody c.responseHeaders br ev.endOfStream = .ok (hm, bm, u))
    (heos : ev.endOfStream = true) (hcosts : c.config.requestCosts ≠ [])
    (hmb : maybeBuildDynamicMetadata env
      { c with translator := some t, costs := usageAddU32 c.costs u } = .error e) :
    processResponseBody env c ev =
      (.err ("failed to build dynamic metadata: " ++ e),
       ([MetricEvent.recordTokenUsage u.inputTokens u.outputTokens u.totalTokens] ++
        (if c.stream then [MetricEvent.recordTokenLatency u.outputTokens] else []) ++
        [MetricEvent.recordRequestCompletion false])) := by
  simp only [processResponseBody, processResponseBodyCore, hdec, ht, htr]
  rw [if_pos (by simp [heos, List.isEmpty_iff, hcosts])]
  simp [hmb]

/-- Evaluation of the C4 amended theorem on a concrete failing CEL rule. -/
theorem celEvalFailure_fatal_witness :
    processResponseBody envEvalFail procCelFail ⟨"", true⟩ =
      (.err ("failed to build dynamic metadata: " ++
        "failed to evaluate CEL expression: no such attribute"),
       ([MetricEvent.recordTokenUsage 1 2 3] ++
        (if procCelFail.stream then [MetricEvent.recordTokenLatency 2] else []) ++
        [MetricEvent.recordRequestCompletion false])) :=
  celEvalFailure_fatal envEvalFail procCelFail idTranslator ⟨"", true⟩ ""
    none none ⟨1, 2, 3⟩ "failed to evaluate CEL expression: no such attribute"
    rfl rfl rfl rfl (by decide) rfl

/-- The deferred wrapper of `ProcessRequestBody` never changes the call's
outcome, only its metric events. -/
theorem processRequestBody_fst (env : Env) (c : ChatCompletionProcessor)
    (rawBody : Except String ChatCompletionRequest) :
    (processRequestBody env c rawBody).1 = (processRequestBodyCore env c rawBody).1 := by
  simp only [processRequestBody]
  split <;> rfl

/-- The deferred wrapper of `ProcessResponseHeaders` never changes the
call's outcome, only its metric events. -/
theorem processResponseHeaders_fst (c : ChatCompletionProcessor) (hdrs : HeaderMap) :
    (processResponseHeaders c hdrs).1 = (processResponseHeadersCore c hdrs).1 := by
  simp only [processResponseHeaders]
  split <;> rfl

/-- `ProcessResponseHeaders` (before its deferred call) never panics. -/
theorem processResponseHeadersCore_no_panic (c : ChatCompletionProcessor)
    (hdrs : HeaderMap) : (processResponseHeadersCore c hdrs).1.isPanicked = false := by
  simp only [processResponseHeadersCore]
  repeat' split
  all_goals rfl

/-- `ProcessRequestBody` (before its deferred call) never panics provided
every dynamic-load-balancing reference the router can select is present in
the configuration's dynamic-load-balancer map. -/
theorem processRequestBodyCore_no_panic (env : Env) (c : ChatCompletionProcessor)
    (rawBody : Except String ChatCompletionRequest)
    (hlb : ∀ hm b, c.config.router hm = .ok b →
      ∀ ref, b.dynamicLoadBalancing = some ref →
        (c.config.dynamicLoadBalancers.find? (fun p => p.1 == ref)).isSome = true) :
    (processRequestBodyCore env c rawBody).1.isPanicked = false := by
  simp only [processRequestBodyCore]
  repeat' split
  all_goals try rfl
  next _x1 model body hpar _x2 b0 hrouter _dynSel m heq =>
    rcases hdlb : b0.dynamicLoadBalancing with _ | ref <;> rw [hdlb] at heq
    · simp at heq
    · have hfind := hlb _ b0 hrouter ref hdlb
      rcases hf : List.find? (fun p => p.1 == ref) c.config.dynamicLoadBalancers with _ | pr
      · rw [hf] at hfind
        simp at hfind
      · rcases pr with ⟨fst, lb⟩
        rcases hlm : lb model with e | bh <;> simp [hf, hlm] at heq

/-- A processor routed to a backend whose dynamic-load-balancing reference
is absent from the configuration's dynamic-load-balancer map. -/
def procDynMissing : ChatCompletionProcessor := { proc0 with
  config := { config0 with
    router := fun _ => .ok ⟨"dyn-backend", ⟨.openAI, ""⟩, some 0⟩ } }

/-- C9 counterexample: when the routed backend's dynamic-load-balancing
reference is absent from the dynamic-load-balancer map, `ProcessRequestBody`
terminates by panicking, not by returning a response or an error value. -/
theorem requestBody_panics_counterexample :
    processRequestBody env0 procDynMissing (.ok ⟨"m", false⟩) =
      (.panicked "BUG: failed to find dynamic load balancer", [.setModel "m"]) := rfl

/-- C9 amended: no processor operation panics, except that
`ProcessRequestBody` panics when the routed backend carries a
dynamic-load-balancing reference missing from the configuration map; under
the configuration invariant that every such reference is present, no
operation panics. -/
theorem processor_no_panic (env : Env) (c : ChatCompletionProcessor)
    (hdrs : HeaderMap) (ev : RespBodyEvent)
    (rawBody : Except String ChatCompletionRequest) :
    (processRequestHeaders c).1.isPanicked = false ∧
    (processResponseHeaders c hdrs).1.isPanicked = false ∧
    (processResponseBody env c ev).1.isPanicked = false ∧
    ((∀ hm b, c.config.router hm = .ok b →
        ∀ ref, b.dynamicLoadBalancing = some ref →
          (c.config.dynamicLoadBalancers.find? (fun p => p.1 == ref)).isSome = true) →
      (processRequestBody env c rawBody).1.isPanicked = false) :=
  ⟨rfl,
   (processResponseHeaders_fst c hdrs).symm ▸ processResponseHeadersCore_no_panic c hdrs,
   (processResponseBodyCore_shape env c ev).1,
   fun hlb =>
     (processRequestBody_fst env c rawBody).symm ▸
       processRequestBodyCore_no_panic env c rawBody hlb⟩

/-- Evaluation of the C9 amended theorem on a concrete processor whose
router never selects a dynamic backend, with the invariant discharged. -/
theorem processor_no_panic_witness :
    (processRequestHeaders proc0).1.isPanicked = false ∧
    (processResponseHeaders proc0 []).1.isPanicked = false ∧
    (processResponseBody env0 proc0 ⟨"", true⟩).1.isPanicked = false ∧
    (processRequestBody env0 proc0 (.ok ⟨"gpt-4o-mini", false⟩)).1.isPanicked = false :=
  have h := processor_no_panic env0 proc0 [] ⟨"", true⟩ (.ok ⟨"gpt-4o-mini", false⟩)
  ⟨h.1, h.2.1, h.2.2.1, h.2.2.2 (by
    intro hm b hb ref href
    injection hb with hb
    subst hb
    simp [backend0] at href)⟩

/-- A successful `selectTranslator` changes at most the translator field:
configuration and request headers are preserved. -/
theorem selectTranslator_ok_state (env : Env) (c : ChatCompletionProcessor)
    (out : VersionedAPISchema) (t : Translator) (c₂ : ChatCompletionProcessor)
    (h : selectTranslator env c out = .ok (t, c₂)) :
    c₂.config = c.config ∧ c₂.requestHeaders = c.requestHeaders := by
  unfold selectTranslator at h
  split at h
  · simp only [Except.ok.injEq, Prod.mk.injEq] at h
    rw [← h.2]
    exact ⟨rfl, rfl⟩
  · split at h <;> simp only [Except.ok.injEq, Prod.mk.injEq, reduceCtorEq] at h <;>
      rw [← h.2] <;> exact ⟨rfl, rfl⟩

/-- C6: every successfully routed request-body reply carries
`clear_route_cache = true` and header mutations that set the model-name
header to the parsed model and the selected-backend header to the routed
backend's name — or to the literal `original_destination_cluster` when the
routed backend uses dynamic load balancing. -/
theorem requestBody_success_headers (env : Env) (c : ChatCompletionProcessor)
    (req : ChatCompletionRequest) (hm : HeaderMutation) (bm : Option BodyMutation)
    (crc : Bool) (c' : ChatCompletionProcessor) (evts : List MetricEvent)
    (h : processRequestBody env c (.ok req) =
      (.ok (.requestBodyResp hm bm crc, c'), evts)) :
    crc = true ∧
    HeaderValue.mk c.config.modelNameHeaderKey req.model ∈ hm.setHeaders ∧
    ∃ b, c.config.router (hSet c.requestHeaders c.config.modelNameHeaderKey req.model) =
        .ok b ∧
      HeaderValue.mk c.config.selectedBackendHeaderKey
        (if b.dynamicLoadBalancing.isSome then "original_destination_cluster" else b.name)
        ∈ hm.setHeaders := by
  rcases hc : processRequestBodyCore env c (.ok req) with ⟨r1, r2⟩
  simp only [processRequestBody, hc] at h
  rcases r1 with v | m | m
  case err => simp at h
  case panicked => simp at h
  obtain ⟨h1, -⟩ := Prod.mk.injEq .. ▸ h
  rw [h1] at hc
  clear h h1
  simp only [processRequestBodyCore, parseOpenAIChatCompletionBody] at hc
  rcases hr : c.config.router (hSet c.requestHeaders c.config.modelNameHeaderKey req.model)
    with rerr | b0 <;> simp only [hr] at hc
  · split at hc <;> simp at hc
  split at hc
  case h_1 m heq => simp at hc
  case h_2 m heq => simp at hc
  case h_3 b lbH selV heq =>
    have hsel : selV =
        (if b0.dynamicLoadBalancing.isSome then "original_destination_cluster"
         else b0.name) := by
      clear hc
      revert heq
      rcases b0.dynamicLoadBalancing with _ | ref
      · intro heq
        simp at heq
        obtain ⟨-, -, h3⟩ := heq
        simpa using h3.symm
      · intro heq
        rcases hf : List.find? (fun p => p.1 == ref) c.config.dynamicLoadBalancers
          with _ | ⟨fst, lb⟩ <;> simp [hf] at heq
        rcases hlm : lb req.model with e | ⟨bb, hh⟩ <;> simp [hlm] at heq
        obtain ⟨-, -, h3⟩ := heq
        simpa using h3.symm
    split at hc
    case h_1 e heq2 => simp at hc
    case h_2 t c₃ heq2 =>
      obtain ⟨hcfg, hreqh⟩ := selectTranslator_ok_state env _ _ t c₃ heq2
      split at hc
      case h_1 e heq3 => simp at hc
      case h_2 hm0 bm0 heq3 =>
        split at hc
        case h_1 e heq4 => simp at hc
        case h_2 hm2 heq4 =>
          simp only [Prod.mk.injEq, GoResult.ok.injEq,
            ProcessingResponse.requestBodyResp.injEq] at hc
          obtain ⟨⟨⟨hhm, -, hcrc⟩, -⟩, -⟩ := hc
          subst hhm
          refine ⟨hcrc.symm, ?_, b0, rfl, ?_⟩ <;>
          · rcases hfa : List.find? (fun p => p.1 == b.name)
                c₃.config.backendAuthHandlers with _ | ⟨fst, ah⟩ <;>
              simp only [hfa] at heq4
            · simp only [Except.ok.injEq] at heq4
              subst heq4
              subst hsel
              simp [hcfg, List.mem_append]
            · rcases hah : ah c₃.requestHeaders with e | extra <;>
                simp only [hah] at heq4
              · simp at heq4
              · simp only [Except.ok.injEq] at heq4
                subst heq4
                subst hsel
                simp [hcfg, List.mem_append]

/-- Evaluation of the C6 theorem on a concrete successful non-dynamic
routing. -/
theorem requestBody_success_headers_witness :
    true = true ∧
    HeaderValue.mk proc0.config.modelNameHeaderKey "gpt-4o-mini" ∈
      (HeaderMutation.mk
        [⟨"x-ai-eg-model", "gpt-4o-mini"⟩, ⟨"x-ai-eg-selected-backend", "openai"⟩]
        []).setHeaders ∧
    ∃ b, proc0.config.router
        (hSet proc0.requestHeaders proc0.config.modelNameHeaderKey "gpt-4o-mini") =
        .ok b ∧
      HeaderValue.mk proc0.config.selectedBackendHeaderKey
        (if b.dynamicLoadBalancing.isSome then "original_destination_cluster" else b.name)
        ∈ (HeaderMutation.mk
            [⟨"x-ai-eg-model", "gpt-4o-mini"⟩, ⟨"x-ai-eg-selected-backend", "openai"⟩]
            []).setHeaders :=
  requestBody_success_headers env0 proc0 ⟨"gpt-4o-mini", false⟩
    (HeaderMutation.mk
      [⟨"x-ai-eg-model", "gpt-4o-mini"⟩, ⟨"x-ai-eg-selected-backend", "openai"⟩] [])
    none true
    { proc0 with
        requestHeaders := hSet proc0.requestHeaders "x-ai-eg-model" "gpt-4o-mini",
        translator := some idTranslator }
    [MetricEvent.setModel "gpt-4o-mini", MetricEvent.setBackend "openai"] rfl

/-- A successful `ProcessResponseBody` call contributes exactly the
translator's delta to the accumulated costs (with `uint32` wrap-around) and
changes no other state component; with no bound translator the state is
unchanged and the delta is zero. -/
theorem processResponseBody_ok_step (env : Env) (c : ChatCompletionProcessor)
    (ev : RespBodyEvent) (resp : ProcessingResponse) (c' : ChatCompletionProcessor)
    (evts : List MetricEvent)
    (h : processResponseBody env c ev = (.ok (resp, c'), evts)) :
    ∃ d, responseDelta env c.responseEncoding c.responseHeaders c.translator ev = some d ∧
      (c' = { c with costs := usageAddU32 c.costs d } ∨ (c' = c ∧ d = ⟨0, 0, 0⟩)) := by
  simp only [processResponseBody, processResponseBodyCore] at h
  rcases hdec : decodeRespBody env c.responseEncoding ev.body with e | br <;>
    simp only [hdec] at h
  · simp at h
  rcases ht : c.translator with _ | t <;> simp only [ht] at h
  · simp only [Prod.mk.injEq, GoResult.ok.injEq] at h
    obtain ⟨⟨-, hc'⟩, -⟩ := h
    exact ⟨⟨0, 0, 0⟩, by simp [responseDelta, hdec, ht], .inr ⟨hc'.symm, rfl⟩⟩
  rcases htr : t.responseBody c.responseHeaders br ev.endOfStream with e | ⟨hmo, bmo, u⟩ <;>
    simp only [htr] at h
  · simp at h
  refine ⟨u, by simp [responseDelta, hdec, ht, htr], .inl ?_⟩
  by_cases hg : (ev.endOfStream && !c.config.requestCosts.isEmpty) = true
  · rw [if_pos hg] at h
    rcases hmb : maybeBuildDynamicMetadata env
        { c with translator := some t, costs := usageAddU32 c.costs u } with e | dm <;>
      simp only [hmb] at h
    · simp at h
    · simp only [Prod.mk.injEq, GoResult.ok.injEq] at h
      obtain ⟨⟨-, hc'⟩, -⟩ := h
      rw [← hc', ← ht]
  · rw [if_neg hg] at h
    simp only [Prod.mk.injEq, GoResult.ok.injEq] at h
    obtain ⟨⟨-, hc'⟩, -⟩ := h
    rw [← hc', ← ht]

/-- C3 amended: over any run of successful `ProcessResponseBody` calls
whose per-event translator deltas sum without `uint32` overflow, the
accumulated token-usage tuple after the run equals the starting tuple plus
the componentwise sum of the deltas, and each component never decreases
(instantiating the starting state at any intermediate state gives
monotonicity across calls; with overflow the `uint32` fields wrap). -/
theorem tokenUsage_accumulates (env : Env) :
    ∀ (evs : List RespBodyEvent) (c c' : ChatCompletionProcessor)
      (evts : List MetricEvent) (ds : List LLMTokenUsage),
      runResponseBodies env c evs = (.ok c', evts) →
      deltasList env c.responseEncoding c.responseHeaders c.translator evs = some ds →
      c.costs.inputTokens + (usageSum ds).inputTokens < u32Mod →
      c.costs.outputTokens + (usageSum ds).outputTokens < u32Mod →
      c.costs.totalTokens + (usageSum ds).totalTokens < u32Mod →
      (c'.costs.inputTokens = c.costs.inputTokens + (usageSum ds).inputTokens ∧
       c'.costs.outputTokens = c.costs.outputTokens + (usageSum ds).outputTokens ∧
       c'.costs.totalTokens = c.costs.totalTokens + (usageSum ds).totalTokens) ∧
      (c.costs.inputTokens ≤ c'.costs.inputTokens ∧
       c.costs.outputTokens ≤ c'.costs.outputTokens ∧
       c.costs.totalTokens ≤ c'.costs.totalTokens) := by
  intro evs
  induction evs with
  | nil =>
    intro c c' evts ds hrun hds h1 h2 h3
    injection hrun with hq he
    injection hq with hq
    subst hq
    simp only [deltasList, Option.some.injEq] at hds
    subst hds
    simp [usageSum]
  | cons ev rest ih =>
    intro c c' evts ds hrun hds h1 h2 h3
    simp only [runResponseBodies] at hrun
    split at hrun
    case h_2 m e1 heq => simp at hrun
    case h_3 m e1 heq => simp at hrun
    case h_1 a c₂ e1 heq =>
      injection hrun with hq he
      obtain ⟨d, hdelta, hstate⟩ := processResponseBody_ok_step env c ev a c₂ e1 heq
      simp only [deltasList, hdelta] at hds
      rcases hrest : deltasList env c.responseEncoding c.responseHeaders c.translator rest
        with _ | ds' <;> simp [hrest] at hds
      subst hds
      have hrun2 : runResponseBodies env c₂ rest =
          (.ok c', (runResponseBodies env c₂ rest).2) := by
        rw [← hq]
      have hsum1 : (usageSum (d :: ds')).inputTokens =
          d.inputTokens + (usageSum ds').inputTokens := by simp [usageSum]
      have hsum2 : (usageSum (d :: ds')).outputTokens =
          d.outputTokens + (usageSum ds').outputTokens := by simp [usageSum]
      have hsum3 : (usageSum (d :: ds')).totalTokens =
          d.totalTokens + (usageSum ds').totalTokens := by simp [usageSum]
      rw [hsum1] at h1
      rw [hsum2] at h2
      rw [hsum3] at h3
      rw [hsum1, hsum2, hsum3]
      rcases hstate with hA | ⟨hB, hd0⟩
      · subst hA
        have hmod1 : (c.costs.inputTokens + d.inputTokens) % u32Mod =
            c.costs.inputTokens + d.inputTokens := Nat.mod_eq_of_lt (by omega)
        have hmod2 : (c.costs.outputTokens + d.outputTokens) % u32Mod =
            c.costs.outputTokens + d.outputTokens := Nat.mod_eq_of_lt (by omega)
        have hmod3 : (c.costs.totalTokens + d.totalTokens) % u32Mod =
            c.costs.totalTokens + d.totalTokens := Nat.mod_eq_of_lt (by omega)
        obtain ⟨⟨e1', e2', e3'⟩, -⟩ :=
          ih { c with costs := usageAddU32 c.costs d } c' _ ds' hrun2 hrest
            (by simp only [usageAddU32, addU32]; rw [hmod1]; omega)
            (by simp only [usageAddU32, addU32]; rw [hmod2]; omega)
            (by simp only [usageAddU32, addU32]; rw [hmod3]; omega)
        simp only [usageAddU32, addU32] at e1' e2' e3'
        rw [hmod1] at e1'
        rw [hmod2] at e2'
        rw [hmod3] at e3'
        refine ⟨⟨?_, ?_, ?_⟩, ?_, ?_, ?_⟩ <;> omega
      · subst hB
        subst hd0
        simp only at h1 h2 h3 ⊢
        obtain ⟨⟨e1', e2', e3'⟩, -⟩ :=
          ih c₂ c' _ ds' hrun2 hrest (by omega) (by omega) (by omega)
        refine ⟨⟨?_, ?_, ?_⟩, ?_, ?_, ?_⟩ <;> omega

/-- A translator whose per-event delta is the `uint32` maximum input-token
count. -/
def tBig : Translator where
  requestBody := fun _ => .ok (none, none)
  responseHeaders := fun _ => .ok none
  responseBody := fun _ _ _ => .ok (none, none, ⟨4294967295, 0, 0⟩)

/-- A processor bound to `tBig`. -/
def procBig : ChatCompletionProcessor := { proc0 with translator := some tBig }

/-- C3 counterexample: two successful response-body events whose deltas sum
past `2^32` make the accumulated input-token count wrap from `4294967295`
down to `4294967294` — the accumulated tuple decreases and no longer equals
the exact sum of the deltas, refuting unconditional monotonicity. -/
theorem tokenUsage_wraps_counterexample :
    runResponseBodies env0 procBig [⟨"", false⟩] =
      (.ok { procBig with costs := ⟨4294967295, 0, 0⟩ },
       [MetricEvent.recordTokenUsage 4294967295 0 0,
        MetricEvent.recordRequestCompletion true]) ∧
    runResponseBodies env0 procBig [⟨"", false⟩, ⟨"", false⟩] =
      (.ok { procBig with costs := ⟨4294967294, 0, 0⟩ },
       [MetricEvent.recordTokenUsage 4294967295 0 0,
        MetricEvent.recordRequestCompletion true,
        MetricEvent.recordTokenUsage 4294967295 0 0,
        MetricEvent.recordRequestCompletion true]) ∧
    (4294967294 : Nat) < 4294967295 :=
  ⟨rfl, rfl, by decide⟩

/-- Evaluation of the C3 amended theorem on a concrete two-chunk stream
with deltas (1, 2, 3) per chunk. -/
theorem tokenUsage_accumulates_witness :
    ((({ procStream with costs := ⟨2, 4, 6⟩ } : ChatCompletionProcessor).costs.inputTokens =
        procStream.costs.inputTokens +
          (usageSum [⟨1, 2, 3⟩, ⟨1, 2, 3⟩]).inputTokens ∧
      ({ procStream with costs := ⟨2, 4, 6⟩ } : ChatCompletionProcessor).costs.outputTokens =
        procStream.costs.outputTokens +
          (usageSum [⟨1, 2, 3⟩, ⟨1, 2, 3⟩]).outputTokens ∧
      ({ procStream with costs := ⟨2, 4, 6⟩ } : ChatCompletionProcessor).costs.totalTokens =
        procStream.costs.totalTokens +
          (usageSum [⟨1, 2, 3⟩, ⟨1, 2, 3⟩]).totalTokens) ∧
     (procStream.costs.inputTokens ≤
        ({ procStream with costs := ⟨2, 4, 6⟩ } : ChatCompletionProcessor).costs.inputTokens ∧
      procStream.costs.outputTokens ≤
        ({ procStream with costs := ⟨2, 4, 6⟩ } : ChatCompletionProcessor).costs.outputTokens ∧
      procStream.costs.totalTokens ≤
        ({ procStream with costs := ⟨2, 4, 6⟩ } : ChatCompletionProcessor).costs.totalTokens)) :=
  tokenUsage_accumulates env0 [⟨"", false⟩, ⟨"", false⟩] procStream
    { procStream with costs := ⟨2, 4, 6⟩ }
    [MetricEvent.recordTokenUsage 1 2 3, MetricEvent.recordTokenLatency 2,
     MetricEvent.recordRequestCompletion true,
     MetricEvent.recordTokenUsage 1 2 3, MetricEvent.recordTokenLatency 2,
     MetricEvent.recordRequestCompletion true]
    [⟨1, 2, 3⟩, ⟨1, 2, 3⟩] rfl rfl (by decide) (by decide) (by decide)

end AIGW
